import Mathlib

/-!
A shallow embedding of the Object binding layer of `v8go` (`src/object.go`) and
proofs about it.

The engine (V8) is an external collaborator reached only through the narrow
boundary operation set of `object.h`; it is modelled as a structure of response
functions (`Engine`).  Each Go method becomes a Lean function returning its Go
result together with the list of side effects it performed, in order: engine
value allocations, C-string acquisition/release, and boundary calls.  Go panics
are modelled by a dedicated `Outcome.panicked` result, kept apart from the
recoverable `error` return path.
-/

namespace V8Go

/-- A v8 isolate handle (`*Isolate`), identified by an id. -/
structure Isolate where
  id : Nat
deriving DecidableEq, Repr

/-- An execution context (`*Context`); carries its owning isolate (`ctx.iso`). -/
structure Context where
  id : Nat
  iso : Isolate
deriving DecidableEq, Repr

/-- A `Value`: an opaque handle to an engine-resident value (`Value.ptr`) tagged
with the owning context (`Value.ctx`, `none` for a context-free value freshly
made in an isolate). -/
structure Value where
  ptr : Nat
  ctx : Option Context
deriving DecidableEq, Repr

/-- An `Object` embeds `*Value` (src/object.go line 17); every object handle used
through the accessor methods has a valid context, so the embedding carries
`ptr` and `ctx` directly. -/
structure Object where
  ptr : Nat
  ctx : Context
deriving DecidableEq, Repr

/-- A symbol handle usable as a property key. -/
structure Symbol where
  ptr : Nat
deriving DecidableEq, Repr

/-- The dynamic shape of a Go `interface\x7b\x7d` argument, as the closed union
the type switch of `coerceValue` (src/object.go lines 38-48) distinguishes:
the eight supported primitive shapes, any `Valuer` (a type exposing an
underlying `*Value`, carried here directly), and everything else
(`unsupported`, carrying the Go type name that `%T` would print). -/
inductive GoValue where
  | str (s : String)
  | i32 (n : Int)
  | u32 (n : Nat)
  | i64 (n : Int)
  | u64 (n : Nat)
  | f64 (bits : Nat)
  | boolean (b : Bool)
  | bigint (n : Int)
  | valuer (v : Value)
  | unsupported (typeName : String)
deriving DecidableEq, Repr

/-- A boundary call result `(Value|null, Error|null)` as returned by the C
wrappers: either a non-null value pointer or a non-null error. -/
inductive RtnValue where
  | ok (ptr : Nat)
  | err (msg : String)
deriving DecidableEq, Repr

/-- The boundary calls of `object.h` consumed by this layer (spec section 6),
plus the value-construction and function-invocation calls reached through
`NewValue` and `Function.Call`. -/
inductive BoundaryCall where
  | objectGet (obj : Nat) (key : String)
  | objectGetAnyKey (obj : Nat) (key : Nat)
  | objectGetIdx (obj : Nat) (idx : Nat)
  | objectSet (obj : Nat) (key : String) (val : Nat)
  | objectSetAnyKey (obj : Nat) (key : Nat) (val : Nat)
  | objectSetIdx (obj : Nat) (idx : Nat) (val : Nat)
  | objectSetInternalField (obj : Nat) (idx : Nat) (val : Nat)
  | objectGetInternalField (obj : Nat) (idx : Nat)
  | objectInternalFieldCount (obj : Nat)
  | objectHas (obj : Nat) (key : String)
  | objectHasAnyKey (obj : Nat) (key : Nat)
  | objectHasIdx (obj : Nat) (idx : Nat)
  | objectDelete (obj : Nat) (key : String)
  | objectDeleteAnyKey (obj : Nat) (key : Nat)
  | objectDeleteIdx (obj : Nat) (idx : Nat)
  | objectGetPrototype (obj : Nat)
  | objectSetPrototype (obj : Nat) (proto : Nat)
  | functionCall (fn : Nat) (recv : Nat) (args : List Nat)
deriving DecidableEq, Repr

/-- One observable side effect of a binding-layer operation. -/
inductive Effect where
  | allocValue (ptr : Nat)
  | cstringAlloc (s : String)
  | cstringFree (s : String)
  | boundary (c : BoundaryCall)
deriving DecidableEq, Repr

/-- The engine as an opaque collaborator: one response function per boundary
operation.  `Has`/`Delete`/`SetInternalField` wrappers return a C `int`
(src compares it against 0); the get-style wrappers return a value-or-error
pair. -/
structure Engine where
  objectGet : Nat → String → RtnValue
  objectGetAnyKey : Nat → Nat → RtnValue
  objectGetIdx : Nat → Nat → RtnValue
  objectGetInternalField : Nat → Nat → RtnValue
  objectSetInternalField : Nat → Nat → Nat → Int
  objectInternalFieldCount : Nat → Nat
  objectHas : Nat → String → Int
  objectHasAnyKey : Nat → Nat → Int
  objectHasIdx : Nat → Nat → Int
  objectDelete : Nat → String → Int
  objectDeleteAnyKey : Nat → Nat → Int
  objectDeleteIdx : Nat → Nat → Int
  objectGetPrototype : Nat → Nat
  newValuePtr : Nat → GoValue → Nat
  isFunction : Nat → Bool
  functionCall : Nat → Nat → List Nat → RtnValue

/-- The recoverable error values this layer returns (spec section 7):
host-side unsupported-type coercion failures, engine-level thrown exceptions
surfaced as `JSError`, and resolving a non-callable for invocation. -/
inductive V8Error where
  | unsupportedType (msg : String)
  | jsError (msg : String)
  | notAFunction (msg : String)
deriving DecidableEq, Repr

/-- A Go call result that distinguishes the panic exit from the recoverable
error return (spec section 7: fatal contract violations are never returned as
error values). -/
inductive Outcome (α : Type) where
  | ok (a : α)
  | err (e : V8Error)
  | panicked (msg : String)
deriving DecidableEq, Repr

/-- Modelled from the spec: `valueResult` (the shared "wrap boundary result
into a Value-or-error" step, defined in value.go which is not part of the
excerpt).  A non-null boundary value becomes a `Value` tagged with the given
context; otherwise the boundary error surfaces as a `JSError`. -/
def valueResult (ctx : Context) (rtn : RtnValue) : Except V8Error Value :=
  match rtn with
  | .ok p => Except.ok ⟨p, some ctx⟩
  | .err m => Except.error (V8Error.jsError m)

/-- Modelled from the spec: `NewValue` (value.go, not part of the excerpt).
For an input already validated as one of the supported primitive shapes,
construction always succeeds, allocating one new engine value in the isolate;
no error path exists for these shapes (spec section 4.1). -/
def NewValue (eng : Engine) (iso : Isolate) (v : GoValue) : Value × List Effect :=
  let p := eng.newValuePtr iso.id v
  (⟨p, none⟩, [Effect.allocValue p])

/-- Modelled from the spec: `Value.AsFunction` (value.go, not part of the
excerpt).  Requires the value to be callable; if not, fails with a
NotAFunction-kind error (spec section 4.5 step 2). -/
def Value.AsFunction (eng : Engine) (v : Value) : Except V8Error Value :=
  if eng.isFunction v.ptr then Except.ok v
  else Except.error (V8Error.notAFunction "v8go: value is not a Function")

/-- Modelled from the spec: `Function.Call` (function.go, not part of the
excerpt).  Invokes the function with the given receiver and argument value
pointers through the boundary and wraps the result in the caller's context
(spec section 4.5 steps 3-4). -/
def functionCallStep (eng : Engine) (ctx : Context) (fnPtr recv : Nat)
    (args : List Nat) : Except V8Error Value × List Effect :=
  (valueResult ctx (eng.functionCall fnPtr recv args),
   [Effect.boundary (BoundaryCall.functionCall fnPtr recv args)])

/-- Embedding of `coerceValue` (src/object.go lines 37-49): primitives build a new engine
value via `NewValue` (error discarded, see the source comment on lines 40-41),
a `Valuer` yields its existing underlying value, anything else fails with the
unsupported-type error carrying the concrete Go type name. -/
def coerceValue (eng : Engine) (iso : Isolate) (val : GoValue) :
    Except V8Error Value × List Effect :=
  match val with
  | .str _ | .i32 _ | .u32 _ | .i64 _ | .u64 _ | .f64 _ | .boolean _ | .bigint _ =>
      let r := NewValue eng iso val
      (Except.ok r.1, r.2)
  | .valuer v => (Except.ok v, [])
  | .unsupported t =>
      (Except.error (V8Error.unsupportedType
        ("v8go: unsupported object property type `" ++ t ++ "`")), [])

/-- Embedding of `Object.MethodCall` (src/object.go lines 21-35): marshals the method name
(released by `defer` on every exit path), performs a name-keyed boundary get,
wraps it via `valueResult`, requires a callable, and invokes it with the
object bound as receiver. -/
def Object.MethodCall (eng : Engine) (o : Object) (methodName : String)
    (args : List Value) : Except V8Error Value × List Effect :=
  let pre := [Effect.cstringAlloc methodName,
              Effect.boundary (BoundaryCall.objectGet o.ptr methodName)]
  match valueResult o.ctx (eng.objectGet o.ptr methodName) with
  | .error e => (Except.error e, pre ++ [Effect.cstringFree methodName])
  | .ok prop =>
      match Value.AsFunction eng prop with
      | .error e => (Except.error e, pre ++ [Effect.cstringFree methodName])
      | .ok fn =>
          let r := functionCallStep eng o.ctx fn.ptr o.ptr (args.map Value.ptr)
          (r.1, pre ++ r.2 ++ [Effect.cstringFree methodName])

/-- Embedding of `Object.Set` (src/object.go lines 55-65): coerce first; on coercion error
return it before anything else happens; otherwise marshal the key, make the
boundary set call and free the key. -/
def Object.Set (eng : Engine) (o : Object) (key : String) (val : GoValue) :
    Except V8Error Unit × List Effect :=
  match coerceValue eng o.ctx.iso val with
  | (.error e, es) => (Except.error e, es)
  | (.ok value, es) =>
      (Except.ok (),
       es ++ [Effect.cstringAlloc key,
              Effect.boundary (BoundaryCall.objectSet o.ptr key value.ptr),
              Effect.cstringFree key])

/-- Embedding of `Object.SetSymbol` (src/object.go lines 71-79). -/
def Object.SetSymbol (eng : Engine) (o : Object) (key : Symbol) (val : GoValue) :
    Except V8Error Unit × List Effect :=
  match coerceValue eng o.ctx.iso val with
  | (.error e, es) => (Except.error e, es)
  | (.ok value, es) =>
      (Except.ok (),
       es ++ [Effect.boundary (BoundaryCall.objectSetAnyKey o.ptr key.ptr value.ptr)])

/-- Embedding of `Object.SetIdx` (src/object.go lines 85-94). -/
def Object.SetIdx (eng : Engine) (o : Object) (idx : Nat) (val : GoValue) :
    Except V8Error Unit × List Effect :=
  match coerceValue eng o.ctx.iso val with
  | (.error e, es) => (Except.error e, es)
  | (.ok value, es) =>
      (Except.ok (),
       es ++ [Effect.boundary (BoundaryCall.objectSetIdx o.ptr idx value.ptr)])

/-- Embedding of `Object.SetInternalField` (src/object.go lines 115-129): coerce first; on
coercion error return it; otherwise make the boundary call, and when the
engine reports `inserted == 0` panic with the index-out-of-range message
(which reads the field count through the boundary). -/
def Object.SetInternalField (eng : Engine) (o : Object) (idx : Nat)
    (val : GoValue) : Outcome Unit × List Effect :=
  match coerceValue eng o.ctx.iso val with
  | (.error e, es) => (Outcome.err e, es)
  | (.ok value, es) =>
      let inserted := eng.objectSetInternalField o.ptr idx value.ptr
      let es1 := es ++ [Effect.boundary
        (BoundaryCall.objectSetInternalField o.ptr idx value.ptr)]
      if inserted = 0 then
        (Outcome.panicked ("index out of range [" ++ toString idx ++
            "] with length " ++ toString (eng.objectInternalFieldCount o.ptr)),
         es1 ++ [Effect.boundary (BoundaryCall.objectInternalFieldCount o.ptr)])
      else (Outcome.ok (), es1)

/-- Embedding of `Object.InternalFieldCount` (src/object.go lines 132-135). -/
def Object.InternalFieldCount (eng : Engine) (o : Object) : Nat × List Effect :=
  (eng.objectInternalFieldCount o.ptr,
   [Effect.boundary (BoundaryCall.objectInternalFieldCount o.ptr)])

/-- Embedding of `Object.Get` (src/object.go lines 138-144). -/
def Object.Get (eng : Engine) (o : Object) (key : String) :
    Except V8Error Value × List Effect :=
  (valueResult o.ctx (eng.objectGet o.ptr key),
   [Effect.cstringAlloc key,
    Effect.boundary (BoundaryCall.objectGet o.ptr key),
    Effect.cstringFree key])

/-- Embedding of `Object.GetSymbol` (src/object.go lines 147-150). -/
def Object.GetSymbol (eng : Engine) (o : Object) (key : Symbol) :
    Except V8Error Value × List Effect :=
  (valueResult o.ctx (eng.objectGetAnyKey o.ptr key.ptr),
   [Effect.boundary (BoundaryCall.objectGetAnyKey o.ptr key.ptr)])

/-- Embedding of `Object.GetInternalField` (src/object.go lines 156-162): a null boundary
value panics with the boundary error; otherwise the value pointer is wrapped
in the receiver's context. -/
def Object.GetInternalField (eng : Engine) (o : Object) (idx : Nat) :
    Outcome Value × List Effect :=
  match eng.objectGetInternalField o.ptr idx with
  | .ok p =>
      (Outcome.ok ⟨p, some o.ctx⟩,
       [Effect.boundary (BoundaryCall.objectGetInternalField o.ptr idx)])
  | .err m =>
      (Outcome.panicked m,
       [Effect.boundary (BoundaryCall.objectGetInternalField o.ptr idx)])

/-- Embedding of `Object.GetIdx` (src/object.go lines 165-168). -/
def Object.GetIdx (eng : Engine) (o : Object) (idx : Nat) :
    Except V8Error Value × List Effect :=
  (valueResult o.ctx (eng.objectGetIdx o.ptr idx),
   [Effect.boundary (BoundaryCall.objectGetIdx o.ptr idx)])

/-- Embedding of `Object.Has` (src/object.go lines 172-176). -/
def Object.Has (eng : Engine) (o : Object) (key : String) : Bool × List Effect :=
  (eng.objectHas o.ptr key != 0,
   [Effect.cstringAlloc key,
    Effect.boundary (BoundaryCall.objectHas o.ptr key),
    Effect.cstringFree key])

/-- Embedding of `Object.HasSymbol` (src/object.go lines 180-182). -/
def Object.HasSymbol (eng : Engine) (o : Object) (key : Symbol) :
    Bool × List Effect :=
  (eng.objectHasAnyKey o.ptr key.ptr != 0,
   [Effect.boundary (BoundaryCall.objectHasAnyKey o.ptr key.ptr)])

/-- Embedding of `Object.HasIdx` (src/object.go lines 185-187). -/
def Object.HasIdx (eng : Engine) (o : Object) (idx : Nat) : Bool × List Effect :=
  (eng.objectHasIdx o.ptr idx != 0,
   [Effect.boundary (BoundaryCall.objectHasIdx o.ptr idx)])

/-- Embedding of `Object.Delete` (src/object.go lines 190-194). -/
def Object.Delete (eng : Engine) (o : Object) (key : String) :
    Bool × List Effect :=
  (eng.objectDelete o.ptr key != 0,
   [Effect.cstringAlloc key,
    Effect.boundary (BoundaryCall.objectDelete o.ptr key),
    Effect.cstringFree key])

/-- Embedding of `Object.DeleteSymbol` (src/object.go lines 197-199). -/
def Object.DeleteSymbol (eng : Engine) (o : Object) (key : Symbol) :
    Bool × List Effect :=
  (eng.objectDeleteAnyKey o.ptr key.ptr != 0,
   [Effect.boundary (BoundaryCall.objectDeleteAnyKey o.ptr key.ptr)])

/-- Embedding of `Object.DeleteIdx` (src/object.go lines 202-204). -/
def Object.DeleteIdx (eng : Engine) (o : Object) (idx : Nat) :
    Bool × List Effect :=
  (eng.objectDeleteIdx o.ptr idx != 0,
   [Effect.boundary (BoundaryCall.objectDeleteIdx o.ptr idx)])

/-- Embedding of `Object.GetPrototype` (src/object.go lines 210-213): a new `Object` handle
over the boundary-returned value pointer, tagged with the receiver's
context. -/
def Object.GetPrototype (eng : Engine) (o : Object) : Object × List Effect :=
  (⟨eng.objectGetPrototype o.ptr, o.ctx⟩,
   [Effect.boundary (BoundaryCall.objectGetPrototype o.ptr)])

/-- Embedding of `Object.SetPrototype` (src/object.go lines 220-222): fire-and-forget
boundary call, no status inspected. -/
def Object.SetPrototype (_eng : Engine) (o : Object) (proto : Object) :
    Unit × List Effect :=
  ((), [Effect.boundary (BoundaryCall.objectSetPrototype o.ptr proto.ptr)])

/-- The primitive shapes enumerated by the first case of the type switch in
`coerceValue` (src/object.go line 39). -/
def GoValue.isPrimitiveShape : GoValue → Bool
  | .str _ => true
  | .i32 _ => true
  | .u32 _ => true
  | .i64 _ => true
  | .u64 _ => true
  | .f64 _ => true
  | .boolean _ => true
  | .bigint _ => true
  | .valuer _ => false
  | .unsupported _ => false

/-- The Method Invoker contract as spec section 4.5 words it: propagate a Get
error unchanged; require the resolved value to be callable, else a
NotAFunction-kind error; otherwise invoke with the object bound as receiver
and return the invocation's value-or-error. -/
def methodCallContract (eng : Engine) (o : Object) (methodName : String)
    (args : List Value) : Except V8Error Value :=
  match eng.objectGet o.ptr methodName with
  | .err m => Except.error (V8Error.jsError m)
  | .ok p =>
      if eng.isFunction p then
        valueResult o.ctx (eng.functionCall p o.ptr (args.map Value.ptr))
      else Except.error (V8Error.notAFunction "v8go: value is not a Function")

/-- Each allocated C-string key in an effect trace is also released in it. -/
def cstringReleased (es : List Effect) : Prop :=
  ∀ s, Effect.cstringAlloc s ∈ es → Effect.cstringFree s ∈ es

/-- A concrete isolate used to evaluate the theorems on closed inputs. -/
def sampleIsolate : Isolate := ⟨1⟩

/-- A concrete context in `sampleIsolate`. -/
def sampleContext : Context := ⟨1, sampleIsolate⟩

/-- A concrete object handle in `sampleContext`. -/
def sampleObject : Object := ⟨10, sampleContext⟩

/-- A concrete symbol key. -/
def sampleSymbol : Symbol := ⟨20⟩

/-- A concrete engine: two internal field slots, property 42 is callable,
everything needed to evaluate the operations on closed inputs. -/
def sampleEngine : Engine where
  objectGet := fun _ key =>
    if key = "boom" then RtnValue.err "Uncaught Error" else RtnValue.ok 42
  objectGetAnyKey := fun _ _ => RtnValue.ok 7
  objectGetIdx := fun _ _ => RtnValue.ok 7
  objectGetInternalField := fun _ idx =>
    if idx < 2 then RtnValue.ok 9 else RtnValue.err "field out of range"
  objectSetInternalField := fun _ idx _ => if idx < 2 then 1 else 0
  objectInternalFieldCount := fun _ => 2
  objectHas := fun _ _ => 1
  objectHasAnyKey := fun _ _ => 1
  objectHasIdx := fun _ _ => 0
  objectDelete := fun _ _ => 1
  objectDeleteAnyKey := fun _ _ => 0
  objectDeleteIdx := fun _ _ => 1
  objectGetPrototype := fun obj => obj + 100
  newValuePtr := fun _ _ => 1000
  isFunction := fun p => p == 42
  functionCall := fun fn recv _ => RtnValue.ok (fn + recv)

/-- When coercion fails, it fails with empty effect trace: the only failing
branch of the type switch is the `default` one, which allocates nothing. -/
theorem coerceValue_error_eq (eng : Engine) (iso : Isolate) (val : GoValue)
    (e : V8Error) (h : (coerceValue eng iso val).1 = Except.error e) :
    coerceValue eng iso val = (Except.error e, []) := by
  cases val <;> simp_all [coerceValue, NewValue]

/-- Coercion never touches a C string: its effect trace holds no
`cstringAlloc`. -/
theorem coerceValue_no_cstring (eng : Engine) (iso : Isolate) (val : GoValue)
    (s : String) : Effect.cstringAlloc s ∉ (coerceValue eng iso val).2 := by
  cases val <;> simp [coerceValue, NewValue]

/-- C6: coercion of an input that already exposes the Value-producing
capability returns that input's existing underlying Value unchanged, with an
empty effect trace — in particular no new engine value is allocated. -/
theorem coerce_valuer_returns_existing (eng : Engine) (iso : Isolate)
    (v : Value) : coerceValue eng iso (GoValue.valuer v) = (Except.ok v, []) :=
  rfl

/-- C7: coercion of an input that is neither a supported primitive shape nor
Value-producing fails with the unsupported-type error carrying the input's
concrete type name, with an empty effect trace — no engine-side allocation
and no boundary call. -/
theorem coerce_unsupported_fails_hostside (eng : Engine) (iso : Isolate)
    (typeName : String) :
    coerceValue eng iso (GoValue.unsupported typeName)
      = (Except.error (V8Error.unsupportedType
          ("v8go: unsupported object property type `" ++ typeName ++ "`")),
         []) :=
  rfl

/-- C2: `MethodCall` equals the Method Invoker contract: a Get error is
propagated unchanged, a non-callable resolved value yields the
NotAFunction-kind error, and otherwise the function is invoked with the
object bound as receiver, its value-or-error returned. -/
theorem methodCall_meets_contract (eng : Engine) (o : Object)
    (methodName : String) (args : List Value) :
    (Object.MethodCall eng o methodName args).1
      = methodCallContract eng o methodName args := by
  cases hg : eng.objectGet o.ptr methodName with
  | err m =>
      simp [Object.MethodCall, methodCallContract, valueResult, hg]
  | ok p =>
      cases hf : eng.isFunction p <;>
        simp [Object.MethodCall, methodCallContract, valueResult,
              Value.AsFunction, functionCallStep, hg, hf]

/-- C8: the Has and Delete operations for all three key kinds are total
boolean functions of the boundary response: each returns exactly the boundary
call's nonzero test, with no error result path (the name-keyed ones also
acquire and release the key's C string around the single boundary call). -/
theorem has_delete_total_boolean (eng : Engine) (o : Object) (key : String)
    (sym : Symbol) (idx : Nat) :
    Object.Has eng o key
      = (eng.objectHas o.ptr key != 0,
         [Effect.cstringAlloc key,
          Effect.boundary (BoundaryCall.objectHas o.ptr key),
          Effect.cstringFree key]) ∧
    Object.HasSymbol eng o sym
      = (eng.objectHasAnyKey o.ptr sym.ptr != 0,
         [Effect.boundary (BoundaryCall.objectHasAnyKey o.ptr sym.ptr)]) ∧
    Object.HasIdx eng o idx
      = (eng.objectHasIdx o.ptr idx != 0,
         [Effect.boundary (BoundaryCall.objectHasIdx o.ptr idx)]) ∧
    Object.Delete eng o key
      = (eng.objectDelete o.ptr key != 0,
         [Effect.cstringAlloc key,
          Effect.boundary (BoundaryCall.objectDelete o.ptr key),
          Effect.cstringFree key]) ∧
    Object.DeleteSymbol eng o sym
      = (eng.objectDeleteAnyKey o.ptr sym.ptr != 0,
         [Effect.boundary (BoundaryCall.objectDeleteAnyKey o.ptr sym.ptr)]) ∧
    Object.DeleteIdx eng o idx
      = (eng.objectDeleteIdx o.ptr idx != 0,
         [Effect.boundary (BoundaryCall.objectDeleteIdx o.ptr idx)]) :=
  ⟨rfl, rfl, rfl, rfl, rfl, rfl⟩

/-- C1: for every key kind (string name, symbol, index, internal-field index),
when coercion of the input fails the write operation returns that coercion
error verbatim with an empty effect trace — no boundary call, no allocation,
no C-string marshaling — so the boundary set call can only happen after
coercion succeeded. -/
theorem set_coercion_error_short_circuits (eng : Engine) (o : Object)
    (key : String) (sym : Symbol) (idx fidx : Nat) (val : GoValue)
    (e : V8Error) (h : (coerceValue eng o.ctx.iso val).1 = Except.error e) :
    Object.Set eng o key val = (Except.error e, []) ∧
    Object.SetSymbol eng o sym val = (Except.error e, []) ∧
    Object.SetIdx eng o idx val = (Except.error e, []) ∧
    Object.SetInternalField eng o fidx val = (Outcome.err e, []) := by
  have hc := coerceValue_error_eq eng o.ctx.iso val e h
  refine ⟨?_, ?_, ?_, ?_⟩ <;>
    simp [Object.Set, Object.SetSymbol, Object.SetIdx, Object.SetInternalField,
          hc]

/-- Witness for C1 at a concrete input: an unsupported Go value (a channel)
fails coercion, and all four write operations return that error with no
effects. -/
theorem set_coercion_error_short_circuits_witness :
    (coerceValue sampleEngine sampleObject.ctx.iso
        (GoValue.unsupported "chan int")).1
      = Except.error (V8Error.unsupportedType
          "v8go: unsupported object property type `chan int`") ∧
    (Object.Set sampleEngine sampleObject "k" (GoValue.unsupported "chan int")
        = (Except.error (V8Error.unsupportedType
            "v8go: unsupported object property type `chan int`"), []) ∧
     Object.SetSymbol sampleEngine sampleObject sampleSymbol
        (GoValue.unsupported "chan int")
        = (Except.error (V8Error.unsupportedType
            "v8go: unsupported object property type `chan int`"), []) ∧
     Object.SetIdx sampleEngine sampleObject 3 (GoValue.unsupported "chan int")
        = (Except.error (V8Error.unsupportedType
            "v8go: unsupported object property type `chan int`"), []) ∧
     Object.SetInternalField sampleEngine sampleObject 0
        (GoValue.unsupported "chan int")
        = (Outcome.err (V8Error.unsupportedType
            "v8go: unsupported object property type `chan int`"), [])) :=
  ⟨rfl, set_coercion_error_short_circuits sampleEngine sampleObject "k"
    sampleSymbol 3 0 (GoValue.unsupported "chan int") _ rfl⟩

/-- C3: coercion succeeds for every input of a supported primitive shape: the
result is the freshly constructed engine value, and the only effect is that
one allocation — no error path is reachable on this branch. -/
theorem coerce_primitive_succeeds (eng : Engine) (iso : Isolate)
    (val : GoValue) (h : val.isPrimitiveShape = true) :
    coerceValue eng iso val
      = (Except.ok ⟨eng.newValuePtr iso.id val, none⟩,
         [Effect.allocValue (eng.newValuePtr iso.id val)]) := by
  cases val <;> simp_all [coerceValue, NewValue, GoValue.isPrimitiveShape]

/-- Witness for C3 at a concrete input: a boolean is a primitive shape and
coerces successfully. -/
theorem coerce_primitive_succeeds_witness :
    (GoValue.boolean true).isPrimitiveShape = true ∧
    coerceValue sampleEngine sampleIsolate (GoValue.boolean true)
      = (Except.ok ⟨sampleEngine.newValuePtr sampleIsolate.id
            (GoValue.boolean true), none⟩,
         [Effect.allocValue (sampleEngine.newValuePtr sampleIsolate.id
            (GoValue.boolean true))]) :=
  ⟨rfl, coerce_primitive_succeeds sampleEngine sampleIsolate
    (GoValue.boolean true) rfl⟩

/-- C4 (code bug): the result of a name-keyed `Set` is exactly the coercion
result with the value erased: once coercion succeeds, `Set` returns success
unconditionally — the boundary set call `ObjectSet` yields no status, so an
engine-side set failure can never surface as an error from `Set`. -/
theorem set_result_is_coercion_result (eng : Engine) (o : Object)
    (key : String) (val : GoValue) :
    (Object.Set eng o key val).1
      = (match (coerceValue eng o.ctx.iso val).1 with
         | Except.error e => Except.error e
         | Except.ok _ => Except.ok ()) := by
  unfold Object.Set
  cases h : coerceValue eng o.ctx.iso val with
  | mk r es => cases r <;> simp [h]

/-- C5: the only recoverable error `SetInternalField` returns is a coercion
failure; after successful coercion, an engine-rejected insert (index out of
range, or an object without internal field support) panics with the
out-of-range message rather than returning an error value. -/
theorem setInternalField_fatal_on_contract_violation (eng : Engine)
    (o : Object) (idx : Nat) (val : GoValue) :
    (∀ e, (Object.SetInternalField eng o idx val).1 = Outcome.err e →
        (coerceValue eng o.ctx.iso val).1 = Except.error e) ∧
    (∀ w, (coerceValue eng o.ctx.iso val).1 = Except.ok w →
        eng.objectSetInternalField o.ptr idx w.ptr = 0 →
        (Object.SetInternalField eng o idx val).1
          = Outcome.panicked ("index out of range [" ++ toString idx ++
              "] with length "
              ++ toString (eng.objectInternalFieldCount o.ptr))) := by
  constructor
  · intro e he
    unfold Object.SetInternalField at he
    cases h : coerceValue eng o.ctx.iso val with
    | mk r es =>
        rw [h] at he
        cases r with
        | error e2 => simp_all
        | ok w =>
            by_cases hz : eng.objectSetInternalField o.ptr idx w.ptr = 0 <;>
              simp [hz] at he
  · intro w hw hz
    unfold Object.SetInternalField
    cases h : coerceValue eng o.ctx.iso val with
    | mk r es =>
        rw [h] at hw
        cases r with
        | error e2 => simp_all
        | ok w2 =>
            have hww : w2 = w := by simpa using hw
            subst hww
            simp [hz]

/-- C9: every name-keyed operation (Get, Set, Has, Delete, MethodCall)
releases each C string it allocates for the key, on every exit path —
including the early error returns of Set (which allocates nothing) and
MethodCall. -/
theorem name_keyed_ops_release_key (eng : Engine) (o : Object) (key : String)
    (val : GoValue) (args : List Value) :
    cstringReleased (Object.Get eng o key).2 ∧
    cstringReleased (Object.Set eng o key val).2 ∧
    cstringReleased (Object.Has eng o key).2 ∧
    cstringReleased (Object.Delete eng o key).2 ∧
    cstringReleased (Object.MethodCall eng o key args).2 := by
  refine ⟨?_, ?_, ?_, ?_, ?_⟩
  · intro s hs
    simp only [Object.Get, List.mem_cons, List.not_mem_nil, or_false] at hs ⊢
    rcases hs with hs | hs | hs <;> simp_all
  · intro s hs
    unfold Object.Set at hs ⊢
    have hno := coerceValue_no_cstring eng o.ctx.iso val s
    cases h : coerceValue eng o.ctx.iso val with
    | mk r es =>
        rw [h] at hs hno
        cases r with
        | error e => exact absurd hs hno
        | ok w =>
            simp only [List.mem_append, List.mem_cons, List.not_mem_nil,
              or_false] at hs ⊢
            rcases hs with hs | hs | hs | hs <;> simp_all
  · intro s hs
    simp only [Object.Has, List.mem_cons, List.not_mem_nil, or_false] at hs ⊢
    rcases hs with hs | hs | hs <;> simp_all
  · intro s hs
    simp only [Object.Delete, List.mem_cons, List.not_mem_nil, or_false]
      at hs ⊢
    rcases hs with hs | hs | hs <;> simp_all
  · intro s hs
    unfold Object.MethodCall at hs ⊢
    cases hg : eng.objectGet o.ptr key with
    | err m =>
        simp only [valueResult, hg, List.mem_cons] at hs ⊢
        simp_all
    | ok p =>
        by_cases hf : eng.isFunction p = true <;>
          simp only [valueResult, Value.AsFunction, functionCallStep, hf,
            if_true, if_false, List.mem_append, List.mem_cons,
            List.not_mem_nil] at hs ⊢ <;>
          simp_all

/-- A successful `valueResult` wrap is tagged with the context it was given. -/
theorem valueResult_ok_ctx (ctx : Context) (rtn : RtnValue) (v : Value)
    (h : valueResult ctx rtn = Except.ok v) : v.ctx = some ctx := by
  cases rtn with
  | ok p =>
      have h2 : ({ ptr := p, ctx := some ctx } : Value) = v := by
        simpa [valueResult] using h
      rw [← h2]
  | err m => simp [valueResult] at h

/-- C10: every Value or Object handle a read operation produces (Get,
GetSymbol, GetIdx, GetInternalField, GetPrototype) is tagged with the
receiver object's own execution context. -/
theorem read_ops_tag_receiver_context (eng : Engine) (o : Object)
    (key : String) (sym : Symbol) (idx fidx : Nat) :
    (∀ v, (Object.Get eng o key).1 = Except.ok v → v.ctx = some o.ctx) ∧
    (∀ v, (Object.GetSymbol eng o sym).1 = Except.ok v → v.ctx = some o.ctx) ∧
    (∀ v, (Object.GetIdx eng o idx).1 = Except.ok v → v.ctx = some o.ctx) ∧
    (∀ v, (Object.GetInternalField eng o fidx).1 = Outcome.ok v →
        v.ctx = some o.ctx) ∧
    (Object.GetPrototype eng o).1.ctx = o.ctx := by
  refine ⟨?_, ?_, ?_, ?_, rfl⟩
  · intro v hv
    exact valueResult_ok_ctx o.ctx (eng.objectGet o.ptr key) v hv
  · intro v hv
    exact valueResult_ok_ctx o.ctx (eng.objectGetAnyKey o.ptr sym.ptr) v hv
  · intro v hv
    exact valueResult_ok_ctx o.ctx (eng.objectGetIdx o.ptr idx) v hv
  · intro v hv
    cases hg : eng.objectGetInternalField o.ptr fidx with
    | ok p =>
        have h3 : ({ ptr := p, ctx := some o.ctx } : Value) = v := by
          simpa [Object.GetInternalField, hg] using hv
        rw [← h3]
    | err m => simp [Object.GetInternalField, hg] at hv

end V8Go
